import Mathlib

/-!
Shallow embedding of `project2_py/helpers.py`: evaluation-budgeted
constrained-optimization problems, the random-search baseline, the scorer
and the test-harness trial decision.

Numbers are modelled as rationals (the fixture formulas are polynomial),
points as `List ℚ`, and the `np.inf` budget sentinel as `Option ℕ` with
`none` standing for infinity.  Python's `assert`-based budget failure and
numpy's `IndexError` are modelled as the two constructors of `EvalError`.
-/

/-- Errors an evaluation call can raise: the budget `assert` failing
(`Number of allowed function calls exceeded.`) or an out-of-range index
into the input point. -/
inductive EvalError where
  | budgetExceeded
  | indexError
deriving DecidableEq, Repr

deriving instance DecidableEq for Except

/-- A fixture: the data a concrete `ConstrainedOptimizationProblem`
subclass supplies — dimensions, name, budget, and the wrapped formulas.
The wrapped functions return `none` when the input point is too short for
the indices the formula reads (numpy raises `IndexError` there). -/
structure Fixture where
  xdim : ℕ
  cdim : ℕ
  prob : String
  n : ℕ
  wrapped_f : List ℚ → Option ℚ
  wrapped_g : List ℚ → Option (List ℚ)
  wrapped_c : List ℚ → Option (List ℚ)

/-- Mutable state of a problem instance: the evaluation counter `_ctr`
and the budget `_n` (`none` models `np.inf` after `nolimit()`). -/
structure ProblemState where
  ctr : ℕ
  n : Option ℕ
deriving DecidableEq, Repr

/-- A fresh instance: `__init__` sets `_n` to the fixture's budget and
`_reset` sets `_ctr = 0`. -/
def freshState (fx : Fixture) : ProblemState :=
  { ctr := 0, n := some fx.n }

/-- `self._ctr <= self.n` (true unconditionally when `n` is `np.inf`). -/
def budget_ok (ctr : ℕ) : Option ℕ → Bool
  | none => true
  | some n => ctr ≤ n

/-- `nolimit()`: sets `n` to `np.inf`. -/
def ProblemState.nolimit (s : ProblemState) : ProblemState :=
  { s with n := none }

namespace OptimizationProblem

/-- `OptimizationProblem.f`: increments the counter by 1, asserts it is
within budget, then evaluates the wrapped objective. -/
def f (fx : Fixture) (s : ProblemState) (x : List ℚ) :
    ProblemState × Except EvalError ℚ :=
  let s' : ProblemState := { s with ctr := s.ctr + 1 }
  if budget_ok s'.ctr s.n then
    match fx.wrapped_f x with
    | some v => (s', Except.ok v)
    | none => (s', Except.error EvalError.indexError)
  else (s', Except.error EvalError.budgetExceeded)

/-- `OptimizationProblem.g`: increments the counter by 2, asserts it is
within budget, then evaluates the wrapped gradient. -/
def g (fx : Fixture) (s : ProblemState) (x : List ℚ) :
    ProblemState × Except EvalError (List ℚ) :=
  let s' : ProblemState := { s with ctr := s.ctr + 2 }
  if budget_ok s'.ctr s.n then
    match fx.wrapped_g x with
    | some v => (s', Except.ok v)
    | none => (s', Except.error EvalError.indexError)
  else (s', Except.error EvalError.budgetExceeded)

end OptimizationProblem

namespace ConstrainedOptimizationProblem

/-- `ConstrainedOptimizationProblem.c`: increments the counter by 1,
asserts it is within budget, then evaluates the wrapped constraints. -/
def c (fx : Fixture) (s : ProblemState) (x : List ℚ) :
    ProblemState × Except EvalError (List ℚ) :=
  let s' : ProblemState := { s with ctr := s.ctr + 1 }
  if budget_ok s'.ctr s.n then
    match fx.wrapped_c x with
    | some v => (s', Except.ok v)
    | none => (s', Except.error EvalError.indexError)
  else (s', Except.error EvalError.budgetExceeded)

end ConstrainedOptimizationProblem

/-- `Simple1`: f(x) = -x0*x1, g = (-x1, -x0), c = (x0+x1²-1, -x0-x1). -/
def simple1 : Fixture where
  xdim := 2
  cdim := 2
  prob := "simple1"
  n := 2000
  wrapped_f x :=
    match x.get? 0, x.get? 1 with
    | some x0, some x1 => some (-x0 * x1)
    | _, _ => none
  wrapped_g x :=
    match x.get? 0, x.get? 1 with
    | some x0, some x1 => some [-x1, -x0]
    | _, _ => none
  wrapped_c x :=
    match x.get? 0, x.get? 1 with
    | some x0, some x1 => some [x0 + x1 ^ 2 - 1, -x0 - x1]
    | _, _ => none

/-- `Simple2` (Rosenbrock-like): f = 100(x1-x0²)² + (1-x0)²,
g = (2(-1+x0+200x0³-200x0x1), 200(-x0²+x1)),
c = ((x0-1)³-x1+1, x0+x1-2). -/
def simple2 : Fixture where
  xdim := 2
  cdim := 2
  prob := "simple2"
  n := 2000
  wrapped_f x :=
    match x.get? 0, x.get? 1 with
    | some x0, some x1 => some (100 * (x1 - x0 ^ 2) ^ 2 + (1 - x0) ^ 2)
    | _, _ => none
  wrapped_g x :=
    match x.get? 0, x.get? 1 with
    | some x0, some x1 =>
        some [2 * (-1 + x0 + 200 * x0 ^ 3 - 200 * x0 * x1),
              200 * (-x0 ^ 2 + x1)]
    | _, _ => none
  wrapped_c x :=
    match x.get? 0, x.get? 1 with
    | some x0, some x1 => some [(x0 - 1) ^ 3 - x1 + 1, x0 + x1 - 2]
    | _, _ => none

/-- `Simple3`: f = x0-2x1+x2, g = (1,-2,1), c = (x0²+x1²+x2²-1). -/
def simple3 : Fixture where
  xdim := 3
  cdim := 1
  prob := "simple3"
  n := 2000
  wrapped_f x :=
    match x.get? 0, x.get? 1, x.get? 2 with
    | some x0, some x1, some x2 => some (x0 - 2 * x1 + x2)
    | _, _, _ => none
  wrapped_g _ := some [1, -2, 1]
  wrapped_c x :=
    match x.get? 0, x.get? 1, x.get? 2 with
    | some x0, some x1, some x2 => some [x0 ^ 2 + x1 ^ 2 + x2 ^ 2 - 1]
    | _, _, _ => none

/-- `Simple3.x0`: `b = 2.0*[1,-1,0]`, `a = -2.0*[1,-1,0]`,
`x0 = rand(3)*(b-a) + a`, modelled elementwise over the three uniform
draws `r`. -/
def simple3_base : List ℚ := [1, -1, 0]

def simple3_b : List ℚ := simple3_base.map (fun v => 2 * v)

def simple3_a : List ℚ := simple3_base.map (fun v => -2 * v)

def simple3_x0 (r : List ℚ) : List ℚ :=
  List.zipWith (fun ri (ab : ℚ × ℚ) => ri * (ab.2 - ab.1) + ab.1)
    r (simple3_a.zip simple3_b)

/-- The three kinds of metered evaluation a caller can perform. -/
inductive EvalKind where
  | obj
  | grad
  | constr
deriving DecidableEq, Repr

/-- Credit cost of each evaluation kind: `f` and `c` cost 1, `g` costs 2. -/
def evalCost : EvalKind → ℕ
  | EvalKind.obj => 1
  | EvalKind.grad => 2
  | EvalKind.constr => 1

/-- Forget the payload of an evaluation result, keeping the outcome. -/
def dropVal : Except EvalError α → Except EvalError Unit
  | Except.ok _ => Except.ok ()
  | Except.error e => Except.error e

/-- Dispatch one metered evaluation on the instance, keeping only
success/failure of the call (the state mutation is identical for all
three kinds up to the credit cost). -/
def runEval (fx : Fixture) (s : ProblemState) (k : EvalKind) (x : List ℚ) :
    ProblemState × Except EvalError Unit :=
  match k with
  | EvalKind.obj =>
      let r := OptimizationProblem.f fx s x
      (r.1, dropVal r.2)
  | EvalKind.grad =>
      let r := OptimizationProblem.g fx s x
      (r.1, dropVal r.2)
  | EvalKind.constr =>
      let r := ConstrainedOptimizationProblem.c fx s x
      (r.1, dropVal r.2)

/-- Run a sequence of metered evaluations, threading the instance state
and collecting each call's outcome. -/
def runEvals (fx : Fixture) (s : ProblemState) :
    List (EvalKind × List ℚ) → ProblemState × List (Except EvalError Unit)
  | [] => (s, [])
  | e :: rest =>
      let r := runEval fx s e.1 e.2
      let t := runEvals fx r.1 rest
      (t.1, r.2 :: t.2)

/-- Total credit cost of a sequence of evaluations. -/
def totalCost (evs : List (EvalKind × List ℚ)) : ℕ :=
  (evs.map fun e => evalCost e.1).sum

/-- `max_constraint_violation`: `max(np.maximum(c_of_x, 0))`.  The fold
with base 0 agrees with numpy's `max` on the (always nonempty, already
clamped-nonnegative) arrays the fixtures produce. -/
def max_constraint_violation (c_of_x : List ℚ) : ℚ :=
  (c_of_x.map fun v => max v 0).foldr max 0

/-- Incumbent state of the random-search loop: `best_x = None`,
`best_f = np.inf`, `best_mcv = np.inf` initially; `⊤` models `np.inf`. -/
structure RSState where
  best_x : Option (List ℚ)
  best_f : WithTop ℚ
  best_mcv : WithTop ℚ

/-- The loop's initial incumbent. -/
def rsInit : RSState :=
  { best_x := none, best_f := ⊤, best_mcv := ⊤ }

/-- One acceptance step of `optimize_random`: keep the candidate if it is
strictly more feasible, or equally feasible with a strictly lower
objective value. -/
def rsStep (rs : RSState) (x : List ℚ) (f_x mcv_x : ℚ) : RSState :=
  if (mcv_x : WithTop ℚ) ≤ rs.best_mcv then
    if (mcv_x : WithTop ℚ) < rs.best_mcv then
      { best_x := some x, best_f := (f_x : WithTop ℚ),
        best_mcv := (mcv_x : WithTop ℚ) }
    else if (f_x : WithTop ℚ) < rs.best_f then
      { best_x := some x, best_f := (f_x : WithTop ℚ),
        best_mcv := (mcv_x : WithTop ℚ) }
    else rs
  else rs

/-- `optimize_random`, with the stream of standard-normal perturbations
made explicit as a list (each loop iteration consumes one noise vector;
the list doubles as fuel).  Returns the final instance state, the final
incumbent, the first evaluation error if one was raised (Python would
propagate it out of the loop), and the trace of counter values observed
after each metered call. -/
def optimize_random (fx : Fixture) (x0 : List ℚ) (n : ℕ) (s : ProblemState)
    (rs : RSState) :
    List (List ℚ) → ProblemState × RSState × Option EvalError × List ℕ
  | [] => (s, rs, none, [])
  | noise :: rest =>
      if (s.ctr : ℤ) < (n : ℤ) - 2 then
        let x := List.zipWith (fun a b => a + b) x0 noise
        let rf := OptimizationProblem.f fx s x
        match rf.2 with
        | Except.error e => (rf.1, rs, some e, [rf.1.ctr])
        | Except.ok f_x =>
            let rc := ConstrainedOptimizationProblem.c fx rf.1 x
            match rc.2 with
            | Except.error e => (rc.1, rs, some e, [rf.1.ctr, rc.1.ctr])
            | Except.ok c_x =>
                let rs' := rsStep rs x f_x (max_constraint_violation c_x)
                let t := optimize_random fx x0 n rc.1 rs' rest
                (t.1, t.2.1, t.2.2.1, rf.1.ctr :: rc.1.ctr :: t.2.2.2)
      else (s, rs, none, [])

/-- The quadratic-penalty helper inside `get_score`:
`np.sum(np.clip(c(x), 0, np.inf)**2)`. -/
def p_quad (c_of_x : List ℚ) : ℚ :=
  (c_of_x.map fun v => max v 0 ^ 2).sum

/-- `get_score`: fresh instance, `nolimit()`, then
`f(x) + (p_quad(x) > 0) * 1e7`. -/
def get_score (fx : Fixture) (x : List ℚ) : Except EvalError ℚ :=
  let p := (freshState fx).nolimit
  let rf := OptimizationProblem.f fx p x
  match rf.2 with
  | Except.error e => Except.error e
  | Except.ok score =>
      let rc := ConstrainedOptimizationProblem.c fx rf.1 x
      match rc.2 with
      | Except.error e => Except.error e
      | Except.ok c_x =>
          Except.ok (score + (if p_quad c_x > 0 then 1 else 0) * 10000000)

/-- A coordinate of a point returned by an optimizer: a real (rational)
value or the floating-point `NaN`. -/
inductive RVal where
  | nan
  | val (q : ℚ)
deriving DecidableEq, Repr

/-- `np.any(np.isnan(xb_opt))`. -/
def any_isnan (x : List RVal) : Bool :=
  x.any fun v =>
    match v with
    | RVal.nan => true
    | RVal.val _ => false

/-- The per-seed trial decision of `test_optimize`: a NaN in the
candidate's point is an automatic loss; otherwise the candidate wins
exactly when its score is strictly below the baseline's. -/
def trial_better (xb_opt : List RVal) (score_opt score_rand : ℚ) : Bool :=
  if any_isnan xb_opt then false else decide (score_opt < score_rand)

/-! ### Metering lemmas shared by the budget claims -/

theorem f_state (fx : Fixture) (s : ProblemState) (x : List ℚ) :
    (OptimizationProblem.f fx s x).1 = { s with ctr := s.ctr + 1 } := by
  simp only [OptimizationProblem.f]
  split
  · cases fx.wrapped_f x <;> rfl
  · rfl

theorem g_state (fx : Fixture) (s : ProblemState) (x : List ℚ) :
    (OptimizationProblem.g fx s x).1 = { s with ctr := s.ctr + 2 } := by
  simp only [OptimizationProblem.g]
  split
  · cases fx.wrapped_g x <;> rfl
  · rfl

theorem c_state (fx : Fixture) (s : ProblemState) (x : List ℚ) :
    (ConstrainedOptimizationProblem.c fx s x).1 = { s with ctr := s.ctr + 1 } := by
  simp only [ConstrainedOptimizationProblem.c]
  split
  · cases fx.wrapped_c x <;> rfl
  · rfl

theorem runEval_state (fx : Fixture) (s : ProblemState) (k : EvalKind) (x : List ℚ) :
    (runEval fx s k x).1 = { s with ctr := s.ctr + evalCost k } := by
  cases k <;>
    simp only [runEval, evalCost, f_state, g_state, c_state]

theorem f_not_budget_err (fx : Fixture) (s : ProblemState) (x : List ℚ) (n : ℕ)
    (hn : s.n = some n) (h : s.ctr + 1 ≤ n) :
    (OptimizationProblem.f fx s x).2 ≠ Except.error EvalError.budgetExceeded := by
  simp only [OptimizationProblem.f, hn, budget_ok]
  rw [if_pos (by simpa using h)]
  cases fx.wrapped_f x <;> simp

theorem g_not_budget_err (fx : Fixture) (s : ProblemState) (x : List ℚ) (n : ℕ)
    (hn : s.n = some n) (h : s.ctr + 2 ≤ n) :
    (OptimizationProblem.g fx s x).2 ≠ Except.error EvalError.budgetExceeded := by
  simp only [OptimizationProblem.g, hn, budget_ok]
  rw [if_pos (by simpa using h)]
  cases fx.wrapped_g x <;> simp

theorem c_not_budget_err (fx : Fixture) (s : ProblemState) (x : List ℚ) (n : ℕ)
    (hn : s.n = some n) (h : s.ctr + 1 ≤ n) :
    (ConstrainedOptimizationProblem.c fx s x).2 ≠ Except.error EvalError.budgetExceeded := by
  simp only [ConstrainedOptimizationProblem.c, hn, budget_ok]
  rw [if_pos (by simpa using h)]
  cases fx.wrapped_c x <;> simp

theorem f_budget_err (fx : Fixture) (s : ProblemState) (x : List ℚ) (n : ℕ)
    (hn : s.n = some n) (h : n < s.ctr + 1) :
    (OptimizationProblem.f fx s x).2 = Except.error EvalError.budgetExceeded := by
  simp only [OptimizationProblem.f, hn, budget_ok]
  rw [if_neg (by simpa using Nat.not_le_of_lt h)]

theorem g_budget_err (fx : Fixture) (s : ProblemState) (x : List ℚ) (n : ℕ)
    (hn : s.n = some n) (h : n < s.ctr + 2) :
    (OptimizationProblem.g fx s x).2 = Except.error EvalError.budgetExceeded := by
  simp only [OptimizationProblem.g, hn, budget_ok]
  rw [if_neg (by simpa using Nat.not_le_of_lt h)]

theorem c_budget_err (fx : Fixture) (s : ProblemState) (x : List ℚ) (n : ℕ)
    (hn : s.n = some n) (h : n < s.ctr + 1) :
    (ConstrainedOptimizationProblem.c fx s x).2 = Except.error EvalError.budgetExceeded := by
  simp only [ConstrainedOptimizationProblem.c, hn, budget_ok]
  rw [if_neg (by simpa using Nat.not_le_of_lt h)]

theorem dropVal_error_iff (r : Except EvalError α) (e : EvalError) :
    dropVal r = Except.error e ↔ r = Except.error e := by
  cases r <;> simp [dropVal]

theorem runEval_not_budget_err (fx : Fixture) (s : ProblemState) (k : EvalKind)
    (x : List ℚ) (n : ℕ) (hn : s.n = some n) (h : s.ctr + evalCost k ≤ n) :
    (runEval fx s k x).2 ≠ Except.error EvalError.budgetExceeded := by
  cases k
  · simpa [runEval, dropVal_error_iff] using f_not_budget_err fx s x n hn h
  · simpa [runEval, dropVal_error_iff] using g_not_budget_err fx s x n hn h
  · simpa [runEval, dropVal_error_iff] using c_not_budget_err fx s x n hn h

theorem runEval_budget_err (fx : Fixture) (s : ProblemState) (k : EvalKind)
    (x : List ℚ) (n : ℕ) (hn : s.n = some n) (h : n < s.ctr + evalCost k) :
    (runEval fx s k x).2 = Except.error EvalError.budgetExceeded := by
  cases k
  · simp [runEval, dropVal_error_iff, f_budget_err fx s x n hn h]
  · simp [runEval, dropVal_error_iff, g_budget_err fx s x n hn h]
  · simp [runEval, dropVal_error_iff, c_budget_err fx s x n hn h]

theorem f_nolimit_ok (fx : Fixture) (s : ProblemState) (x : List ℚ)
    (hn : s.n = none) :
    (OptimizationProblem.f fx s x).2 ≠ Except.error EvalError.budgetExceeded := by
  simp only [OptimizationProblem.f, hn, budget_ok, if_true]
  cases fx.wrapped_f x <;> simp

theorem g_nolimit_ok (fx : Fixture) (s : ProblemState) (x : List ℚ)
    (hn : s.n = none) :
    (OptimizationProblem.g fx s x).2 ≠ Except.error EvalError.budgetExceeded := by
  simp only [OptimizationProblem.g, hn, budget_ok, if_true]
  cases fx.wrapped_g x <;> simp

theorem c_nolimit_ok (fx : Fixture) (s : ProblemState) (x : List ℚ)
    (hn : s.n = none) :
    (ConstrainedOptimizationProblem.c fx s x).2 ≠ Except.error EvalError.budgetExceeded := by
  simp only [ConstrainedOptimizationProblem.c, hn, budget_ok, if_true]
  cases fx.wrapped_c x <;> simp

theorem runEval_nolimit_ok (fx : Fixture) (s : ProblemState) (k : EvalKind)
    (x : List ℚ) (hn : s.n = none) :
    (runEval fx s k x).2 ≠ Except.error EvalError.budgetExceeded := by
  cases k
  · simpa [runEval, dropVal_error_iff] using f_nolimit_ok fx s x hn
  · simpa [runEval, dropVal_error_iff] using g_nolimit_ok fx s x hn
  · simpa [runEval, dropVal_error_iff] using c_nolimit_ok fx s x hn

theorem evalCost_pos (k : EvalKind) : 1 ≤ evalCost k := by
  cases k <;> simp [evalCost]

theorem totalCost_cons (e : EvalKind × List ℚ) (rest : List (EvalKind × List ℚ)) :
    totalCost (e :: rest) = evalCost e.1 + totalCost rest := by
  simp [totalCost]

theorem runEvals_ctr (fx : Fixture) (evs : List (EvalKind × List ℚ)) :
    ∀ s : ProblemState, (runEvals fx s evs).1.ctr = s.ctr + totalCost evs := by
  induction evs with
  | nil => intro s; simp [runEvals, totalCost]
  | cons e rest ih =>
      intro s
      simp only [runEvals]
      rw [ih, runEval_state, totalCost_cons]
      simp
      omega

theorem runEvals_n (fx : Fixture) (evs : List (EvalKind × List ℚ)) :
    ∀ s : ProblemState, (runEvals fx s evs).1.n = s.n := by
  induction evs with
  | nil => intro s; simp [runEvals]
  | cons e rest ih =>
      intro s
      simp only [runEvals]
      rw [ih, runEval_state]

theorem runEvals_not_budget_err (fx : Fixture) (evs : List (EvalKind × List ℚ))
    (n : ℕ) :
    ∀ s : ProblemState, s.n = some n → s.ctr + totalCost evs ≤ n →
      ∀ r ∈ (runEvals fx s evs).2, r ≠ Except.error EvalError.budgetExceeded := by
  induction evs with
  | nil => intro s _ _ r hr; simp [runEvals] at hr
  | cons e rest ih =>
      intro s hn h r hr
      rw [totalCost_cons] at h
      simp only [runEvals, List.mem_cons] at hr
      rcases hr with hr | hr
      · subst hr
        exact runEval_not_budget_err fx s e.1 e.2 n hn (by omega)
      · refine ih (runEval fx s e.1 e.2).1 ?_ ?_ r hr
        · rw [runEval_state]; exact hn
        · rw [runEval_state]; simp; omega

theorem runEvals_all_budget_err (fx : Fixture) (evs : List (EvalKind × List ℚ))
    (n : ℕ) :
    ∀ s : ProblemState, s.n = some n → n ≤ s.ctr →
      ∀ r ∈ (runEvals fx s evs).2, r = Except.error EvalError.budgetExceeded := by
  induction evs with
  | nil => intro s _ _ r hr; simp [runEvals] at hr
  | cons e rest ih =>
      intro s hn h r hr
      simp only [runEvals, List.mem_cons] at hr
      rcases hr with hr | hr
      · subst hr
        exact runEval_budget_err fx s e.1 e.2 n hn
          (by have := evalCost_pos e.1; omega)
      · refine ih (runEval fx s e.1 e.2).1 ?_ ?_ r hr
        · rw [runEval_state]; exact hn
        · rw [runEval_state]; simp; omega

theorem runEvals_nolimit_ok (fx : Fixture) (evs : List (EvalKind × List ℚ)) :
    ∀ s : ProblemState, s.n = none →
      ∀ r ∈ (runEvals fx s evs).2, r ≠ Except.error EvalError.budgetExceeded := by
  induction evs with
  | nil => intro s _ r hr; simp [runEvals] at hr
  | cons e rest ih =>
      intro s hn r hr
      simp only [runEvals, List.mem_cons] at hr
      rcases hr with hr | hr
      · subst hr
        exact runEval_nolimit_ok fx s e.1 e.2 hn
      · refine ih (runEval fx s e.1 e.2).1 ?_ r hr
        rw [runEval_state]; exact hn

/-- Number of evaluations of a given kind in a sequence. -/
def countKind (k : EvalKind) (evs : List (EvalKind × List ℚ)) : ℕ :=
  evs.countP fun e => decide (e.1 = k)

theorem totalCost_eq_counts (evs : List (EvalKind × List ℚ)) :
    totalCost evs = countKind EvalKind.obj evs + countKind EvalKind.constr evs +
      2 * countKind EvalKind.grad evs := by
  induction evs with
  | nil => simp [totalCost, countKind]
  | cons e rest ih =>
      rcases e with ⟨k, x⟩
      cases k <;>
        simp [totalCost_cons, countKind, List.countP_cons, evalCost] at ih ⊢ <;>
        omega

/-! ### C1: the shared credit pool -/

/-- C1: for any problem instance with budget `n`, after a sequence of `k`
objective, `m` constraint and `j` gradient evaluations with
`k + m + 2j ≤ n`, the counter equals `k + m + 2j` and no call failed with
`BudgetExceeded`; any further evaluation whose credit cost would push the
counter past `n` fails with `BudgetExceeded` instead of returning a
value. -/
theorem counter_and_budget_correct (fx : Fixture)
    (evs : List (EvalKind × List ℚ))
    (h : countKind EvalKind.obj evs + countKind EvalKind.constr evs +
      2 * countKind EvalKind.grad evs ≤ fx.n) :
    (runEvals fx (freshState fx) evs).1.ctr =
        countKind EvalKind.obj evs + countKind EvalKind.constr evs +
          2 * countKind EvalKind.grad evs ∧
      (∀ r ∈ (runEvals fx (freshState fx) evs).2,
        r ≠ Except.error EvalError.budgetExceeded) ∧
      ∀ (k : EvalKind) (x : List ℚ),
        fx.n <
            (runEvals fx (freshState fx) evs).1.ctr + evalCost k →
          (runEval fx (runEvals fx (freshState fx) evs).1 k x).2 =
            Except.error EvalError.budgetExceeded := by
  have hctr : (runEvals fx (freshState fx) evs).1.ctr = totalCost evs := by
    rw [runEvals_ctr]; simp [freshState]
  have hn : (runEvals fx (freshState fx) evs).1.n = some fx.n := by
    rw [runEvals_n]; simp [freshState]
  refine ⟨by rw [hctr, totalCost_eq_counts], ?_, ?_⟩
  · exact runEvals_not_budget_err fx evs fx.n (freshState fx) (by simp [freshState])
      (by simp [freshState]; rw [totalCost_eq_counts]; exact h)
  · intro k x hk
    exact runEval_budget_err fx _ k x fx.n hn hk

/-- Witness for C1 at a concrete run: one objective, one gradient and one
constraint evaluation on `simple1` leave the counter at `1 + 1 + 2 = 4`. -/
theorem counter_and_budget_correct_witness :
    countKind EvalKind.obj
          [(EvalKind.obj, [1, 1]), (EvalKind.grad, [1, 1]),
            (EvalKind.constr, [1, 1])] +
        countKind EvalKind.constr
          [(EvalKind.obj, [1, 1]), (EvalKind.grad, [1, 1]),
            (EvalKind.constr, [1, 1])] +
        2 * countKind EvalKind.grad
          [(EvalKind.obj, [1, 1]), (EvalKind.grad, [1, 1]),
            (EvalKind.constr, [1, 1])] ≤ simple1.n ∧
      (runEvals simple1 (freshState simple1)
          [(EvalKind.obj, [1, 1]), (EvalKind.grad, [1, 1]),
            (EvalKind.constr, [1, 1])]).1.ctr = 4 := by
  refine ⟨by decide, ?_⟩
  have h := counter_and_budget_correct simple1
    [(EvalKind.obj, [1, 1]), (EvalKind.grad, [1, 1]),
      (EvalKind.constr, [1, 1])] (by decide)
  exact h.1.trans (by decide)

/-! ### C7 and C9: unlimited mode and increment-before-check -/

/-- C7: after `nolimit()`, every subsequent metered evaluation succeeds
(never fails with `BudgetExceeded`), for any prior counter value and any
number of further calls of any kinds. -/
theorem nolimit_never_budget_err (fx : Fixture) (s : ProblemState)
    (evs : List (EvalKind × List ℚ)) :
    ∀ r ∈ (runEvals fx s.nolimit evs).2,
      r ≠ Except.error EvalError.budgetExceeded :=
  runEvals_nolimit_ok fx evs s.nolimit rfl

/-- Witness for C7: an instance already 5000 credits past its budget of
2000 still evaluates the objective successfully after `nolimit()`. -/
theorem nolimit_never_budget_err_witness :
    Except.ok () ∈ (runEvals simple1 (ProblemState.mk 5000 (some 2000)).nolimit
        [(EvalKind.obj, [1, 1])]).2 ∧
      (Except.ok () : Except EvalError Unit) ≠
        Except.error EvalError.budgetExceeded := by
  refine ⟨by decide, ?_⟩
  exact nolimit_never_budget_err simple1 (ProblemState.mk 5000 (some 2000))
    [(EvalKind.obj, [1, 1])] (Except.ok ()) (by decide)

/-- C9: the counter is incremented before the budget check, so a gradient
call at count = budget−1 fails with `BudgetExceeded` and leaves
count = budget+1, past the budget; every subsequent metered evaluation on
that instance also fails. -/
theorem increment_before_check (fx : Fixture) (n : ℕ) (x : List ℚ)
    (hn : 1 ≤ n) :
    (OptimizationProblem.g fx (ProblemState.mk (n - 1) (some n)) x).2 =
        Except.error EvalError.budgetExceeded ∧
      (OptimizationProblem.g fx (ProblemState.mk (n - 1) (some n)) x).1.ctr =
        n + 1 ∧
      ∀ (evs : List (EvalKind × List ℚ)),
        ∀ r ∈ (runEvals fx
            (OptimizationProblem.g fx (ProblemState.mk (n - 1) (some n)) x).1
            evs).2,
          r = Except.error EvalError.budgetExceeded := by
  have hst := g_state fx (ProblemState.mk (n - 1) (some n)) x
  refine ⟨g_budget_err fx _ x n rfl (by simp; omega), ?_, ?_⟩
  · rw [hst]; simp; omega
  · intro evs r hr
    refine runEvals_all_budget_err fx evs n _ ?_ ?_ r hr
    · rw [hst]
    · rw [hst]; simp; omega

/-- Witness for C9: on `simple1` with budget 2000, a gradient call at
count 1999 fails and leaves the counter at 2001. -/
theorem increment_before_check_witness :
    (1 ≤ 2000) ∧
      (OptimizationProblem.g simple1
          (ProblemState.mk (2000 - 1) (some 2000)) [0, 0]).2 =
        Except.error EvalError.budgetExceeded ∧
      (OptimizationProblem.g simple1
          (ProblemState.mk (2000 - 1) (some 2000)) [0, 0]).1.ctr = 2000 + 1 := by
  have h := increment_before_check simple1 2000 [0, 0] (by decide)
  exact ⟨by decide, h.1, h.2.1⟩

/-! ### C3 and C6: the random-search baseline -/

theorem optimize_random_invariant (fx : Fixture) (x0 : List ℚ) (n : ℕ)
    (stream : List (List ℚ)) :
    ∀ (s : ProblemState) (rs : RSState), s.n = some n → s.ctr ≤ n →
      (optimize_random fx x0 n s rs stream).2.2.1 ≠
          some EvalError.budgetExceeded ∧
        (optimize_random fx x0 n s rs stream).1.ctr ≤ n ∧
        ∀ c ∈ (optimize_random fx x0 n s rs stream).2.2.2, c ≤ n := by
  induction stream with
  | nil =>
      intro s rs hn h
      refine ⟨by simp [optimize_random], by simpa [optimize_random] using h, ?_⟩
      intro c hc
      simp [optimize_random] at hc
  | cons noise rest ih =>
      intro s rs hn h
      simp only [optimize_random]
      split
      case isFalse hge =>
        refine ⟨by simp, by simpa using h, ?_⟩
        intro c hc
        simp at hc
      case isTrue hlt =>
        have hctr2 : s.ctr + 2 ≤ n := by
          have : (s.ctr : ℤ) + 2 ≤ (n : ℤ) := by omega
          exact_mod_cast this
        have hfst := f_state fx s (List.zipWith (fun a b => a + b) x0 noise)
        cases hf : (OptimizationProblem.f fx s
            (List.zipWith (fun a b => a + b) x0 noise)).2 with
        | error e =>
            have hne := f_not_budget_err fx s
              (List.zipWith (fun a b => a + b) x0 noise) n hn (by omega)
            rw [hf] at hne
            simp only [hf]
            refine ⟨?_, ?_, ?_⟩
            · intro hcontra
              simp only [Option.some.injEq] at hcontra
              exact hne (by rw [hcontra])
            · rw [hfst]; simpa using by omega
            · intro c hc
              simp only [List.mem_singleton] at hc
              subst hc
              rw [hfst]
              simpa using by omega
        | ok f_x =>
            have hcst := c_state fx
              (OptimizationProblem.f fx s
                (List.zipWith (fun a b => a + b) x0 noise)).1
              (List.zipWith (fun a b => a + b) x0 noise)
            cases hc : (ConstrainedOptimizationProblem.c fx
                (OptimizationProblem.f fx s
                  (List.zipWith (fun a b => a + b) x0 noise)).1
                (List.zipWith (fun a b => a + b) x0 noise)).2 with
            | error e =>
                have hne := c_not_budget_err fx
                  (OptimizationProblem.f fx s
                    (List.zipWith (fun a b => a + b) x0 noise)).1
                  (List.zipWith (fun a b => a + b) x0 noise) n
                  (by rw [hfst]; exact hn) (by rw [hfst]; simpa using by omega)
                rw [hc] at hne
                simp only [hf, hc]
                refine ⟨?_, ?_, ?_⟩
                · intro hcontra
                  simp only [Option.some.injEq] at hcontra
                  exact hne (by rw [hcontra])
                · rw [hcst, hfst]; simpa using by omega
                · intro c hmem
                  simp only [List.mem_cons, List.not_mem_nil, or_false] at hmem
                  rcases hmem with hmem | hmem <;> subst hmem
                  · rw [hfst]; simpa using by omega
                  · rw [hcst, hfst]; simpa using by omega
            | ok c_x =>
                simp only [hf, hc]
                have hrec := ih
                  (ConstrainedOptimizationProblem.c fx
                    (OptimizationProblem.f fx s
                      (List.zipWith (fun a b => a + b) x0 noise)).1
                    (List.zipWith (fun a b => a + b) x0 noise)).1
                  (rsStep rs (List.zipWith (fun a b => a + b) x0 noise) f_x
                    (max_constraint_violation c_x))
                  (by rw [hcst, hfst]; exact hn)
                  (by rw [hcst, hfst]; simpa using by omega)
                refine ⟨hrec.1, hrec.2.1, ?_⟩
                intro c hmem
                simp only [List.mem_cons] at hmem
                rcases hmem with hmem | hmem | hmem
                · subst hmem; rw [hfst]; simpa using by omega
                · subst hmem; rw [hcst, hfst]; simpa using by omega
                · exact hrec.2.2 c hmem

/-- C3: the baseline random search, run on a fresh instance whose budget
equals the `n` it is given, keeps the evaluation counter at or below the
budget after every metered call and after the loop terminates, and no
evaluation inside it ever fails with `BudgetExceeded`. -/
theorem optimize_random_within_budget (fx : Fixture) (x0 : List ℚ)
    (stream : List (List ℚ)) :
    (optimize_random fx x0 fx.n (freshState fx) rsInit stream).2.2.1 ≠
        some EvalError.budgetExceeded ∧
      (optimize_random fx x0 fx.n (freshState fx) rsInit stream).1.ctr ≤ fx.n ∧
      ∀ c ∈ (optimize_random fx x0 fx.n (freshState fx) rsInit stream).2.2.2,
        c ≤ fx.n :=
  optimize_random_invariant fx x0 fx.n stream (freshState fx) rsInit rfl
    (Nat.zero_le _)

/-- Witness for C3 on a one-iteration run of `simple1`: the counter value
1 observed after the objective call is within the budget of 2000. -/
theorem optimize_random_within_budget_witness :
    1 ∈ (optimize_random simple1 [0, 0] simple1.n (freshState simple1) rsInit
        [[1, 1]]).2.2.2 ∧
      1 ≤ simple1.n := by
  refine ⟨by decide, ?_⟩
  exact (optimize_random_within_budget simple1 [0, 0] [[1, 1]]).2.2 1 (by decide)

/-- C6 counterexample: `optimize_random` on `simple1` with `x0 = (0,0)`
and budget `n = 2` runs zero iterations (the guard `count() < n − 2`
fails immediately), accepts no candidate, and returns `None` — not the
initial point `x0`. -/
theorem optimize_random_not_x0 :
    ¬ (optimize_random simple1 [0, 0] 2 (ProblemState.mk 0 (some 2)) rsInit
        [[1, 1]]).2.1.best_x = some [0, 0] := by
  decide

/-- C6 amended: the baseline returns the incumbent `best_x`; when the
budget guard stops the loop before any iteration runs, no candidate was
ever accepted and the returned value is `None` (a null value), not the
initial point. -/
theorem optimize_random_none_when_no_iteration (fx : Fixture) (x0 : List ℚ)
    (n : ℕ) (s : ProblemState) (stream : List (List ℚ))
    (h : (n : ℤ) - 2 ≤ (s.ctr : ℤ)) :
    (optimize_random fx x0 n s rsInit stream).2.1.best_x = none := by
  cases stream with
  | nil => simp [optimize_random, rsInit]
  | cons noise rest =>
      simp only [optimize_random]
      rw [if_neg (by omega)]
      rfl

/-- Witness for the amended C6 at the counterexample's input. -/
theorem optimize_random_none_when_no_iteration_witness :
    ((2 : ℤ) - 2 ≤ ((ProblemState.mk 0 (some 2)).ctr : ℤ)) ∧
      (optimize_random simple1 [0, 0] 2 (ProblemState.mk 0 (some 2)) rsInit
        [[1, 1]]).2.1.best_x = none := by
  refine ⟨by decide, ?_⟩
  exact optimize_random_none_when_no_iteration simple1 [0, 0] 2
    (ProblemState.mk 0 (some 2)) [[1, 1]] (by decide)

/-! ### C2: the scorer's step penalty -/

theorem p_quad_cons (a : ℚ) (l : List ℚ) :
    p_quad (a :: l) = max a 0 ^ 2 + p_quad l := by
  simp [p_quad]

theorem p_quad_nonneg (c_of_x : List ℚ) : 0 ≤ p_quad c_of_x := by
  induction c_of_x with
  | nil => simp [p_quad]
  | cons a l ih =>
      rw [p_quad_cons]
      have ha : (0 : ℚ) ≤ max a 0 ^ 2 := sq_nonneg _
      linarith

theorem p_quad_pos_iff (c_of_x : List ℚ) :
    0 < p_quad c_of_x ↔ ∃ v ∈ c_of_x, 0 < v := by
  induction c_of_x with
  | nil => simp [p_quad]
  | cons a l ih =>
      rw [p_quad_cons]
      have hl := p_quad_nonneg l
      have ha : (0 : ℚ) ≤ max a 0 ^ 2 := sq_nonneg _
      constructor
      · intro h
        rcases lt_or_le 0 (max a 0 ^ 2) with hpos | hle
        · have hmax : (0 : ℚ) < max a 0 := by
            by_contra hcon
            push_neg at hcon
            have : max a 0 = 0 := le_antisymm hcon (le_max_right a 0)
            rw [this] at hpos
            simp at hpos
          have : (0 : ℚ) < a := by
            rcases lt_max_iff.mp hmax with h' | h'
            · exact h'
            · exact absurd h' (lt_irrefl 0)
          exact ⟨a, List.mem_cons_self a l, this⟩
        · have : 0 < p_quad l := by linarith
          rcases ih.mp this with ⟨v, hv, hvpos⟩
          exact ⟨v, List.mem_cons_of_mem a hv, hvpos⟩
      · rintro ⟨v, hv, hvpos⟩
        rcases List.mem_cons.mp hv with rfl | hv
        · have hmax : (0 : ℚ) < max v 0 := lt_max_iff.mpr (Or.inl hvpos)
          have : (0 : ℚ) < max v 0 ^ 2 := pow_pos hmax 2
          linarith
        · have := ih.mpr ⟨v, hv, hvpos⟩
          linarith

/-- C2: for any fixture and any point on which the wrapped objective and
constraints evaluate (in particular any point of the declared
dimensionality), the score is exactly `f(x)` when every constraint value
is ≤ 0, and exactly `f(x) + 10,000,000` when at least one constraint
value is > 0, independent of the violation's magnitude. -/
theorem get_score_step_penalty (fx : Fixture) (x : List ℚ) (fv : ℚ)
    (cv : List ℚ) (hf : fx.wrapped_f x = some fv)
    (hc : fx.wrapped_c x = some cv) :
    ((∀ v ∈ cv, v ≤ 0) → get_score fx x = Except.ok fv) ∧
      ((∃ v ∈ cv, 0 < v) → get_score fx x = Except.ok (fv + 10000000)) := by
  have hgs : get_score fx x =
      Except.ok (fv + (if p_quad cv > 0 then 1 else 0) * 10000000) := by
    simp only [get_score, OptimizationProblem.f, ConstrainedOptimizationProblem.c,
      freshState, ProblemState.nolimit, budget_ok, hf, hc]
    simp
  constructor
  · intro hsat
    rw [hgs, if_neg]
    · simp
    · intro hpos
      rcases (p_quad_pos_iff cv).mp hpos with ⟨v, hv, hvpos⟩
      exact absurd (hsat v hv) (not_le.mpr hvpos)
  · intro hviol
    rw [hgs, if_pos ((p_quad_pos_iff cv).mpr hviol)]
    simp

/-- Witness for C2: `simple1` at (1,1) has f = −1 and constraint values
(1, −2), so the first constraint is violated and the score is
−1 + 10,000,000. -/
theorem get_score_step_penalty_witness :
    simple1.wrapped_f [1, 1] = some (-1) ∧
      simple1.wrapped_c [1, 1] = some [1, -2] ∧
      (∃ v ∈ ([1, -2] : List ℚ), 0 < v) ∧
      get_score simple1 [1, 1] = Except.ok (-1 + 10000000) := by
  have hf : simple1.wrapped_f [1, 1] = some (-1) := by
    simp [simple1]
  have hc : simple1.wrapped_c [1, 1] = some [1, -2] := by
    simp [simple1]
    norm_num
  have hviol : ∃ v ∈ ([1, -2] : List ℚ), 0 < v := ⟨1, by simp, by norm_num⟩
  exact ⟨hf, hc, hviol,
    (get_score_step_penalty simple1 [1, 1] (-1) [1, -2] hf hc).2 hviol⟩

/-! ### C4: the per-trial comparison -/

theorem any_isnan_iff (x : List RVal) : any_isnan x = true ↔ RVal.nan ∈ x := by
  simp only [any_isnan, List.any_eq_true]
  constructor
  · rintro ⟨v, hv, h⟩
    cases v with
    | nan => exact hv
    | val q => simp at h
  · intro h
    exact ⟨RVal.nan, h, rfl⟩

/-- C4: if the candidate's returned point contains a NaN the trial is a
loss regardless of the scores; otherwise the candidate wins exactly when
its score is strictly less than the baseline's, so equal scores count as
a loss. -/
theorem trial_better_spec (xb_opt : List RVal) (score_opt score_rand : ℚ) :
    (RVal.nan ∈ xb_opt → trial_better xb_opt score_opt score_rand = false) ∧
      (RVal.nan ∉ xb_opt →
        (trial_better xb_opt score_opt score_rand = true ↔
          score_opt < score_rand)) ∧
      (score_opt = score_rand →
        trial_better xb_opt score_opt score_rand = false) := by
  refine ⟨?_, ?_, ?_⟩
  · intro h
    simp [trial_better, (any_isnan_iff xb_opt).mpr h]
  · intro h
    have : any_isnan xb_opt = false := by
      rcases Bool.eq_false_or_eq_true (any_isnan xb_opt) with hb | hb
      · exact absurd ((any_isnan_iff xb_opt).mp hb) h
      · exact hb
    simp [trial_better, this]
  · intro h
    subst h
    simp [trial_better]

/-- Witness for C4: a NaN-bearing point loses even with a better score,
and equal scores lose. -/
theorem trial_better_spec_witness :
    RVal.nan ∈ [RVal.nan, RVal.val 0] ∧
      trial_better [RVal.nan, RVal.val 0] 0 1 = false := by
  refine ⟨by simp, ?_⟩
  exact (trial_better_spec [RVal.nan, RVal.val 0] 0 1).1 (by simp)

/-! ### C5: there is no dimension check -/

/-- C5 counterexample: `simple1` has `xdim = 2`, yet evaluating the
objective at the length-3 point (1,2,3) returns the value −2 computed
from the first two coordinates — no `DimensionMismatch` (or any other)
failure occurs. -/
theorem f_no_dimension_check :
    (OptimizationProblem.f simple1 (freshState simple1) [1, 2, 3]).2 =
      Except.ok (-2) := by
  simp [OptimizationProblem.f, freshState, budget_ok, simple1]

/-- C5 amended: evaluation performs no dimensionality check.  Any point
with at least `xdim = 2` components (including longer ones) is evaluated
normally from its leading components; a point too short for the formula's
indices fails with an index error, not a dedicated `DimensionMismatch`. -/
theorem f_dimension_behavior :
    (∀ x : List ℚ, 2 ≤ x.length →
      ∃ v, (OptimizationProblem.f simple1 (freshState simple1) x).2 =
        Except.ok v) ∧
      (OptimizationProblem.f simple1 (freshState simple1) [5]).2 =
        Except.error EvalError.indexError := by
  constructor
  · intro x hx
    have h0 : x[0]? = some (x.get ⟨0, by omega⟩) := by
      rw [← List.get?_eq_getElem?]
      exact List.get?_eq_get (by omega)
    have h1 : x[1]? = some (x.get ⟨1, by omega⟩) := by
      rw [← List.get?_eq_getElem?]
      exact List.get?_eq_get (by omega)
    refine ⟨-(x.get ⟨0, by omega⟩) * x.get ⟨1, by omega⟩, ?_⟩
    simp [OptimizationProblem.f, freshState, budget_ok, simple1, h0, h1]
  · simp [OptimizationProblem.f, freshState, budget_ok, simple1]

/-- Witness for the amended C5 at the counterexample's length-3 point. -/
theorem f_dimension_behavior_witness :
    (2 ≤ ([1, 2, 3] : List ℚ).length) ∧
      ∃ v, (OptimizationProblem.f simple1 (freshState simple1) [1, 2, 3]).2 =
        Except.ok v := by
  refine ⟨by simp, ?_⟩
  exact f_dimension_behavior.1 [1, 2, 3] (by simp)

/-! ### C8: simple2 values at the origin -/

/-- C8: on fresh `simple2` instances, the objective at (0,0) is exactly 1
and the gradient at (0,0) is exactly (−2, 0). -/
theorem simple2_values_at_origin :
    (OptimizationProblem.f simple2 (freshState simple2) [0, 0]).2 =
        Except.ok 1 ∧
      (OptimizationProblem.g simple2 (freshState simple2) [0, 0]).2 =
        Except.ok [-2, 0] := by
  constructor
  · simp [OptimizationProblem.f, freshState, budget_ok, simple2]
  · simp [OptimizationProblem.g, freshState, budget_ok, simple2]

/-! ### C10: simple3's degenerate third sampling coordinate -/

/-- C10: for every triple of uniform draws, the initial point sampled by
`simple3` has third coordinate exactly 0 (the box is degenerate there:
both bounds are 0). -/
theorem simple3_x0_third_coord_zero (r0 r1 r2 : ℚ) :
    (simple3_x0 [r0, r1, r2]).get? 2 = some 0 := by
  simp [simple3_x0, simple3_a, simple3_b, simple3_base]
